import Mathlib

/-!
Verification of the schema-translation and invocation pipeline of the
`openai-to-mcp` server (TypeScript sources under `src/`), as a shallow
embedding in Lean 4.

Conventions of the embedding:
* JavaScript runtime values are modelled by the inductive type `JsValue`
  (numbers as rationals; a JS `Date` as an optional integer timestamp,
  `none` standing for `Invalid Date`); absence of a key in a record is
  modelled by absence from an association list.
* JS truthiness on strings (`""` is falsy, `undefined` is falsy) is made
  explicit through the `jsStrOr` / `jsTruthy*` helpers.
* Library boundary calls (`axios`, `JSON.parse`, `new Date`, `Buffer`
  base64) are modelled as explicit deterministic functions or oracle
  parameters, so every definition stays executable.
-/

namespace OpenApiToMcp

/-- A JavaScript runtime value (the subset the pipeline manipulates).
Numbers are modelled as rationals, a `Date` as `date (Option Int)` where
`none` models JS `Invalid Date`. -/
inductive JsValue where
  | str (s : String)
  | num (q : ℚ)
  | bool (b : Bool)
  | obj (fields : List (String × JsValue))
  | arr (elems : List JsValue)
  | date (timestamp : Option Int)
  | null

/-- JS `a || b` for `a : string | undefined` (`undefined` and `""` are falsy). -/
def jsStrOr (a : Option String) (b : String) : String :=
  match a with
  | some s => if s = "" then b else s
  | none => b

/-- JS `a || b` where both sides are `string | undefined`. -/
def jsStrOrOpt (a b : Option String) : Option String :=
  match a with
  | some s => if s = "" then b else some s
  | none => b

/-- JS truthiness of a `string | undefined` value. -/
def jsTruthyStr (a : Option String) : Bool :=
  match a with
  | some s => s ≠ ""
  | none => false

/-- Is the first character list a prefix of the second? -/
def listIsPrefix : List Char → List Char → Bool
  | [], _ => true
  | _ :: _, [] => false
  | a :: as, b :: bs => a = b && listIsPrefix as bs

/-- JS `s.startsWith(pre)` (kept kernel-computable at the character level). -/
def jsStartsWith (s pre : String) : Bool := listIsPrefix pre.data s.data

/-- JS `s.substring(n)` / `s.slice(n)` for `n ≥ 0`. -/
def jsSubstringFrom (n : Nat) (s : String) : String := ⟨s.data.drop n⟩

/-- JS `s.toLowerCase()`. -/
def jsToLower (s : String) : String := ⟨s.data.map Char.toLower⟩

/-- Recursion worker of `jsSplit`. -/
def jsSplitGo (sep : Char) : List Char → List Char → List String
  | [], acc => [⟨acc.reverse⟩]
  | c :: cs, acc =>
    if c = sep then ⟨acc.reverse⟩ :: jsSplitGo sep cs []
    else jsSplitGo sep cs (c :: acc)

/-- JS `s.split(sep)` for a single-character separator
(`"".split(sep)` is `[""]`, a trailing separator yields a trailing `""`). -/
def jsSplit (sep : Char) (s : String) : List String := jsSplitGo sep s.data []

/-- JS `array.join(sep)`. -/
def joinWith (sep : String) : List String → String
  | [] => ""
  | [s] => s
  | s :: rest => s ++ sep ++ joinWith sep rest

/-! ## Operation id derivation (`src/operations/openapi-operations.ts`, `getOperations`) -/

/-- A character kept unchanged by the sanitizing regex `[^a-zA-Z0-9_-]`. -/
def isIdChar (c : Char) : Bool :=
  ('a' ≤ c && c ≤ 'z') || ('A' ≤ c && c ≤ 'Z') || ('0' ≤ c && c ≤ '9') || c = '_' || c = '-'

/-- `s.replaceAll(/[^a-zA-Z0-9_-]/g, "_")`. -/
def replaceNonIdChars (s : String) : String :=
  ⟨s.data.map (fun c => if isIdChar c then c else '_')⟩

/-- JS `s.slice(0, n)`: the first `n` characters. -/
def jsSliceFirst (n : Nat) (s : String) : String :=
  ⟨s.data.take n⟩

/-- JS `s.slice(-n)`: the last `n` characters (the whole string when shorter). -/
def jsSliceLast (n : Nat) (s : String) : String :=
  ⟨s.data.drop (s.data.length - n)⟩

/-- The operation-id fallback chain of `getOperations`
(`openapi-operations.ts` lines 85–99):
`operation.operationId || description?.replaceAll(/[^a-zA-Z0-9_-]/g, "_")?.slice(0, 64)
 || method_path.replaceAll(...).slice(-55)`.
JS `||` falls through on `undefined` and on the empty string. -/
def deriveOperationId (operationId : Option String) (description : Option String)
    (method : String) (path : String) : String :=
  jsStrOr operationId
    (jsStrOr (description.map (fun d => jsSliceFirst 64 (replaceNonIdChars d)))
      (method ++ "_" ++ jsSliceLast 55 (replaceNonIdChars path)))

/-! ## Parameter codec (`src/utils/tool-utils.ts`) -/

/-- An OpenAPI parameter as consumed by the codec: `{name, in, required}`
(the `in` field is called `location` here because `in` is a Lean keyword).
The parameter's schema plays no role in the codec itself. -/
structure ParameterObject where
  name : String
  location : String
  required : Bool
deriving DecidableEq, Repr

/-- One entry of the ordered parameter output: `{name, in: location, value}`. -/
structure RequestParam where
  name : String
  location : String
  value : JsValue

/-- Lookup in the argument record; JS `args[name] === undefined` is `none`. -/
def lookupArg (args : List (String × JsValue)) (name : String) : Option JsValue :=
  (args.find? (fun kv => kv.1 = name)).map (·.2)

/-- One iteration of the `unifiedArgumentsToParametersArray` loop
(`tool-utils.ts` lines 171–192): skip a parameter absent from `args`;
a `body`-location parameter overwrites the single body slot; every other
present parameter is appended to the ordered output list. -/
def codecStep (args : List (String × JsValue))
    (st : List RequestParam × Option JsValue) (param : ParameterObject) :
    List RequestParam × Option JsValue :=
  match lookupArg args param.name with
  | none => st
  | some v =>
    if param.location = "body" then
      (st.1, some v)
    else
      (st.1 ++ [⟨param.name, param.location, v⟩], st.2)

/-- `unifiedArgumentsToParametersArray` (`tool-utils.ts` lines 161–204):
the loop over the declared parameters, starting from an empty ordered
list and an undefined body. -/
def unifiedArgumentsToParametersArray (args : List (String × JsValue))
    (params : List ParameterObject) : List RequestParam × Option JsValue :=
  params.foldl (codecStep args) ([], none)

/-! ## Schema bridge (`src/utils/json-shchema-to-zod.ts`) -/

/-- An OpenAPI schema node as destructured by `openAPISchemaToZod`:
`{description, title, type, properties, required, minimum, maximum, enum, format}`
plus the `items` field (present on array schemas in the test-suite inputs,
but never read by the implementation).  A field that can be absent
(`undefined`) is an `Option`; `properties`/`required` default to empty. -/
inductive SchemaObject where
  | mk (type : Option String)
       (description : Option String)
       (title : Option String)
       (properties : List (String × SchemaObject))
       (required : List String)
       (minimum : Option ℚ)
       (maximum : Option ℚ)
       (enumVals : Option (List String))
       (format : Option String)
       (items : Option SchemaObject)

/-- The closed set of zod validator shapes `openAPISchemaToZod` produces:
`z.string()`, `z.enum(vs)`, `strSchema.transform(val => new Date(val))`,
`z.number()[.min][.max][.int]`, `z.boolean()`, `z.object(shape)` (an
object field is paired with its optionality flag), `z.array(item)`.
The `.describe(...)` metadata does not affect parsing and is omitted. -/
inductive ZodType where
  | zstring
  | zenum (values : List String)
  | ztransformDate (base : ZodType)
  | znumber (minimum maximum : Option ℚ) (isInt : Bool)
  | zboolean
  | zobject (shape : List (String × ZodType × Bool))
  | zarray (item : ZodType)

mutual

/-- `openAPISchemaToZod` (`json-shchema-to-zod.ts` lines 76–128).  The
destructuring default makes an absent `type` behave as `"string"`; an
unsupported type throws (`Except.error`).  Note that the `array` case
builds its element shape from the destructured top-level `properties` and
`required` of the array node itself — the `items` field is never read. -/
def openAPISchemaToZod : SchemaObject → Except String ZodType
  | .mk type _ _ properties required minimum maximum enumVals format _ =>
    match type.getD "string" with
    | "object" => do
      let shape ← convertPropertiesToZodShape properties required
      .ok (.zobject shape)
    | "array" => do
      -- "Assuming arrays contain objects with properties." (source comment)
      let shape ← convertPropertiesToZodShape properties required
      .ok (.zarray (.zobject shape))
    | "string" =>
      let strSchema := match enumVals with
        | some vs => ZodType.zenum vs
        | none => ZodType.zstring
      if format = some "date-time" then
        .ok (.ztransformDate strSchema)
      else
        .ok strSchema
    | "number" => .ok (.znumber minimum maximum false)
    | "integer" => .ok (.znumber minimum maximum true)
    | "boolean" => .ok .zboolean
    | t => .error ("Unsupported type: " ++ t)

/-- `convertPropertiesToZodShape` (`json-shchema-to-zod.ts` lines 62–74):
bridge every property, wrapping fields not listed in `required` as optional. -/
def convertPropertiesToZodShape :
    List (String × SchemaObject) → List String → Except String (List (String × ZodType × Bool))
  | [], _ => .ok []
  | (key, value) :: rest, required => do
    let field ← openAPISchemaToZod value
    let fields ← convertPropertiesToZodShape rest required
    .ok ((key, field, !(required.contains key)) :: fields)

end

/-- Model of JS `new Date(s)` restricted to the ISO-8601 shapes relevant
here: `YYYY-MM-DD`, optionally followed by `T...` time characters.
`none` models `Invalid Date`; the numeric value of a valid timestamp is
abstracted (only parse success/failure matters to the properties below). -/
def jsNewDate (s : String) : Option Int :=
  match s.toList with
  | y1 :: y2 :: y3 :: y4 :: '-' :: m1 :: m2 :: '-' :: d1 :: d2 :: rest =>
    let digitsOk := [y1, y2, y3, y4, m1, m2, d1, d2].all Char.isDigit
    let month := (m1.toNat - '0'.toNat) * 10 + (m2.toNat - '0'.toNat)
    let day := (d1.toNat - '0'.toNat) * 10 + (d2.toNat - '0'.toNat)
    let timeOk := match rest with
      | [] => true
      | 'T' :: ts => ts.all (fun c => c.isDigit || c = ':' || c = '.' || c = 'Z')
      | _ => false
    if digitsOk && 1 ≤ month && month ≤ 12 && 1 ≤ day && day ≤ 31 && timeOk then
      some ((((y1.toNat - '0'.toNat) * 1000 + (y2.toNat - '0'.toNat) * 100 +
        (y3.toNat - '0'.toNat) * 10 + (y4.toNat - '0'.toNat)) * 10000 +
        month * 100 + day : Nat) : Int)
    else
      none
  | _ => none

mutual

/-- Zod parsing semantics for the validator shapes of `ZodType`:
`none` is a thrown `ZodError`, `some v` the (possibly transformed) output.
A `zobject` strips unknown keys and omits absent optional fields; a
`ztransformDate` applies `val => new Date(val)` to the validated string. -/
def zodParse : ZodType → JsValue → Option JsValue
  | .zstring, .str s => some (.str s)
  | .zstring, _ => none
  | .zenum vs, .str s => if vs.contains s then some (.str s) else none
  | .zenum _, _ => none
  | .ztransformDate base, v =>
    match zodParse base v with
    | some (.str s) => some (.date (jsNewDate s))
    | some other => some other
    | none => none
  | .znumber minimum maximum isInt, .num q =>
    if (match minimum with | some mn => mn ≤ q | none => true) &&
       (match maximum with | some mx => q ≤ mx | none => true) &&
       (!isInt || q.den = 1) then
      some (.num q)
    else
      none
  | .znumber _ _ _, _ => none
  | .zboolean, .bool b => some (.bool b)
  | .zboolean, _ => none
  | .zobject shape, .obj fields => (zodParseFields shape fields).map .obj
  | .zobject _, _ => none
  | .zarray item, .arr elems => (zodParseElems item elems).map .arr
  | .zarray _, _ => none

/-- Parse an object value against an object shape, field by field:
a missing optional field is omitted, a missing required field fails. -/
def zodParseFields :
    List (String × ZodType × Bool) → List (String × JsValue) → Option (List (String × JsValue))
  | [], _ => some []
  | (key, ty, opt) :: rest, fields =>
    match (fields.find? (fun kv => kv.1 = key)).map (·.2) with
    | none => if opt then zodParseFields rest fields else none
    | some v => do
      let pv ← zodParse ty v
      let prest ← zodParseFields rest fields
      some ((key, pv) :: prest)

/-- Parse every array element against the item validator. -/
def zodParseElems : ZodType → List JsValue → Option (List JsValue)
  | _, [] => some []
  | ty, v :: vs => do
    let pv ← zodParse ty v
    let pvs ← zodParseElems ty vs
    some (pv :: pvs)

end

/-! ## Base64 (model of Node `Buffer.from(..).toString('base64')` and back)

Characters are treated as their code points modulo 256; this is faithful
for the ASCII credential strings handled by the auth subsystem. -/

/-- The base64 alphabet. -/
def base64Chars : List Char :=
  "ABCDEFGHIJKLMNOPQRSTUVWXYZabcdefghijklmnopqrstuvwxyz0123456789+/".toList

/-- The base64 digit for a 6-bit value. -/
def base64Digit (n : Nat) : Char := base64Chars.getD n 'A'

/-- Encode a byte list into base64 characters (with `=` padding). -/
def base64EncodeBytes : List Nat → List Char
  | [] => []
  | [a] => [base64Digit (a / 4), base64Digit (a % 4 * 16), '=', '=']
  | [a, b] => [base64Digit (a / 4), base64Digit (a % 4 * 16 + b / 16), base64Digit (b % 16 * 4), '=']
  | a :: b :: c :: rest =>
    [base64Digit (a / 4), base64Digit (a % 4 * 16 + b / 16),
     base64Digit (b % 16 * 4 + c / 64), base64Digit (c % 64)] ++ base64EncodeBytes rest

/-- `Buffer.from(s).toString('base64')`. -/
def base64Encode (s : String) : String :=
  String.mk (base64EncodeBytes (s.toList.map (fun c => c.toNat % 256)))

/-- The 6-bit value of a base64 digit. -/
def base64CharValue (c : Char) : Option Nat := base64Chars.findIdx? (· = c)

/-- Decode a list of 6-bit values into bytes. -/
def base64DecodeSextets : List Nat → List Nat
  | a :: b :: c :: d :: rest =>
    (a * 4 + b / 16) :: (b % 16 * 16 + c / 4) :: (c % 4 * 64 + d) :: base64DecodeSextets rest
  | [a, b] => [a * 4 + b / 16]
  | [a, b, c] => [a * 4 + b / 16, b % 16 * 16 + c / 4]
  | _ => []

/-- `Buffer.from(s, 'base64').toString()`. -/
def base64Decode (s : String) : String :=
  let sextets := (s.toList.filter (· ≠ '=')).filterMap base64CharValue
  String.mk ((base64DecodeSextets sextets).map Char.ofNat)

/-! ## Auth manager (`src/operations/auth-operations.ts`) -/

/-- `AuthType` enum. -/
inductive AuthType where
  | NONE
  | API_KEY
  | BEARER_TOKEN
  | OAUTH2
  | CERTIFICATE
  | BASIC_AUTH
deriving DecidableEq, Repr

/-- `AuthConfig.apiKey`. -/
structure ApiKeyAuth where
  key : String
  headerName : Option String := none
  location : Option String := none
deriving DecidableEq, Repr

/-- `AuthConfig.bearerToken`. -/
structure BearerTokenAuth where
  token : String
deriving DecidableEq, Repr

/-- `AuthConfig.oauth2`. -/
structure OAuth2Auth where
  clientId : String
  clientSecret : String
  tokenUrl : String
  scopes : Option (List String) := none
  additionalParams : Option (List (String × String)) := none
deriving DecidableEq, Repr

/-- `AuthConfig.certificate`. -/
structure CertificateAuth where
  certPath : String
  keyPath : String
  passphrase : Option String := none
deriving DecidableEq, Repr

/-- `AuthConfig.basicAuth`.  The `password` is optional because
`createAuthConfigFromEnv` destructures it from a `split(':')` that may
yield no second component (runtime `undefined`). -/
structure BasicAuthCreds where
  username : String
  password : Option String := none
deriving DecidableEq, Repr

/-- `AuthConfig`. -/
structure AuthConfig where
  type : AuthType
  apiKey : Option ApiKeyAuth := none
  bearerToken : Option BearerTokenAuth := none
  oauth2 : Option OAuth2Auth := none
  certificate : Option CertificateAuth := none
  basicAuth : Option BasicAuthCreds := none
  refreshToken : Option String := none
  tokenExpiresAt : Option Int := none
deriving DecidableEq, Repr

/-- `TokenResponse`. -/
structure TokenResponse where
  access_token : String
  refresh_token : Option String := none
  expires_in : Option Int := none
  token_type : Option String := none
deriving DecidableEq, Repr

/-- `AuthState` (the HTTPS agent is abstracted to its presence). -/
structure AuthState where
  tokenData : Option TokenResponse
  tokenExpiresAt : Int
  httpsAgent : Bool := false
deriving DecidableEq, Repr

/-- The token request `getOAuthToken` posts with `axios.post`:
the target URL, the `URLSearchParams` form fields in order, and the
HTTP Basic authorization header. -/
structure TokenRequest where
  url : String
  params : List (String × String)
  authorizationHeader : String
deriving DecidableEq, Repr

/-- `URLSearchParams.append`. -/
def urlParamsAppend (ps : List (String × String)) (k v : String) : List (String × String) :=
  ps ++ [(k, v)]

/-- `URLSearchParams.set`: replace the first occurrence of the key
(dropping any later ones), or append when absent. -/
def urlParamsSet : List (String × String) → String → String → List (String × String)
  | [], k, v => [(k, v)]
  | (k', v') :: rest, k, v =>
    if k' = k then (k, v) :: rest.filter (fun p => p.1 ≠ k)
    else (k', v') :: urlParamsSet rest k v

/-- The grant type a token request carries (its `grant_type` form field). -/
def TokenRequest.grantType (r : TokenRequest) : Option String :=
  (r.params.find? (fun p => p.1 = "grant_type")).map (·.2)

/-- The `refresh_token` form field of a token request, when present. -/
def TokenRequest.refreshTokenParam (r : TokenRequest) : Option String :=
  (r.params.find? (fun p => p.1 = "refresh_token")).map (·.2)

/-- The request-building half of `getOAuthToken`
(`auth-operations.ts` lines 164–197): `grant_type=client_credentials`,
a space-joined `scope` when the scope list is non-empty, the additional
static params, and — when the config carries a (truthy) refresh token —
`grant_type` switched to `refresh_token` plus the `refresh_token` field. -/
def tokenRequestScopedParams (oauth2 : OAuth2Auth) : List (String × String) :=
  match oauth2.scopes with
  | some ss =>
    if ss.length ≠ 0 then
      urlParamsAppend [("grant_type", "client_credentials")] "scope" (joinWith " " ss)
    else [("grant_type", "client_credentials")]
  | none => [("grant_type", "client_credentials")]

/-- The additional static params appended after the scope step. -/
def tokenRequestStaticParams (oauth2 : OAuth2Auth) : List (String × String) :=
  match oauth2.additionalParams with
  | some aps =>
    aps.foldl (fun ps kv => urlParamsAppend ps kv.1 kv.2) (tokenRequestScopedParams oauth2)
  | none => tokenRequestScopedParams oauth2

/-- The final form-field list: a (truthy) config refresh token switches
`grant_type` to `refresh_token` and appends the `refresh_token` field. -/
def tokenRequestParams (authConfig : AuthConfig) (oauth2 : OAuth2Auth) :
    List (String × String) :=
  if jsTruthyStr authConfig.refreshToken then
    urlParamsAppend (urlParamsSet (tokenRequestStaticParams oauth2) "grant_type" "refresh_token")
      "refresh_token" (authConfig.refreshToken.getD "")
  else tokenRequestStaticParams oauth2

/-- The complete token request posted by `getOAuthToken`. -/
def buildTokenRequest (authConfig : AuthConfig) (oauth2 : OAuth2Auth) : TokenRequest :=
  { url := oauth2.tokenUrl
    params := tokenRequestParams authConfig oauth2
    authorizationHeader :=
      "Basic " ++ base64Encode (oauth2.clientId ++ ":" ++ oauth2.clientSecret) }

/-- The observable outcome of one `getOAuthToken` call: the returned token
(`none` = JS `null`), the auth state after the call, the token requests
issued on the network (in order), and the caller-visible `AuthConfig`
after the call (the code spreads the config into a local copy before
writing the refresh token, so the caller's object is never mutated). -/
structure OAuthTokenCall where
  token : Option String
  state : AuthState
  requests : List TokenRequest
  configAfter : AuthConfig
deriving DecidableEq, Repr

/-- The token-cache validity check of `getOAuthToken`:
`state.tokenData?.access_token && state.tokenExpiresAt > now`
(a cached empty-string token is falsy). -/
def hasValidToken (state : AuthState) (now : Int) : Bool :=
  (match state.tokenData with | some t => t.access_token != "" | none => false)
    && state.tokenExpiresAt > now

/-- `getOAuthToken` (`auth-operations.ts` lines 142–226) over the typed
network oracle: `.error` is an `axios.post` rejection (a network error,
or a non-2xx status under the default `validateStatus`), `.ok` a resolved
2xx response whose body parsed to a well-formed token response.  A 2xx
response with a body of any other shape also *resolves*; that mode is
outside this oracle and is modelled by `getOAuthTokenRaw` below. -/
def getOAuthToken (authConfig : AuthConfig) (state : AuthState) (now : Int)
    (network : TokenRequest → Except String TokenResponse) : OAuthTokenCall :=
  match authConfig.oauth2 with
  | none => ⟨none, state, [], authConfig⟩
  | some oauth2 =>
    if hasValidToken state now then
      ⟨state.tokenData.map TokenResponse.access_token, state, [], authConfig⟩
    else
      let request := buildTokenRequest authConfig oauth2
      match network request with
      | .ok data =>
        let state1 : AuthState := { state with tokenData := some data }
        -- `if (response.data.expires_in)` — JS truthiness: 0 is falsy
        let state2 : AuthState :=
          if (match data.expires_in with | some e => e != 0 | none => false) then
            { state1 with tokenExpiresAt := now + data.expires_in.getD 0 * 1000 - 30000 }
          else state1
        -- `const newAuthConfig = { ...authConfig }; if (...) newAuthConfig.refreshToken = ...`
        -- the copy is discarded, so the caller-visible config is unchanged
        let _newAuthConfig : AuthConfig :=
          if jsTruthyStr data.refresh_token then
            { authConfig with refreshToken := data.refresh_token }
          else authConfig
        ⟨some data.access_token, state2, [request], authConfig⟩
      | .error _ => ⟨none, state, [request], authConfig⟩

/-! ### The raw-body OAuth model

`axios.post` resolves every 2xx response, whatever the body parsed to (an
unparseable body is kept as its raw string); only network errors and
non-2xx statuses reject.  The typed oracle above cannot express a
resolved malformed body, so the failure analysis (C3) uses this raw
model, in which a resolved response carries an arbitrary `JsValue`. -/

/-- JS truthiness of an arbitrary value (`none` = `undefined`).
Falsy: `undefined`, `null`, `false`, `0`, `""`; every object — a `Date`
included, valid or not — is truthy. -/
def jsTruthyVal : Option JsValue → Bool
  | none => false
  | some (.str s) => s ≠ ""
  | some (.num q) => q ≠ 0
  | some (.bool b) => b
  | some .null => false
  | some (.date _) => true
  | some (.obj _) => true
  | some (.arr _) => true

/-- JS property read `v.k`: a field lookup on an object, `undefined`
(`none`) on every other value.  This is the safe-navigation behavior at
the one site whose scrutinee may be `null` (`state.tokenData?.access_token`);
the plain accesses below reach it only with a non-null value — the null
response body, whose plain access throws, is handled explicitly at its
use site in `getOAuthTokenRaw`. -/
def jsGetField : JsValue → String → Option JsValue
  | .obj fields, k => (fields.find? (fun kv => kv.1 = k)).map (·.2)
  | _, _ => none

/-- The numeric value of a decimal digit string. -/
def digitsToNat (ds : List Char) : Nat :=
  ds.foldl (fun n c => n * 10 + (c.toNat - '0'.toNat)) 0

/-- JS `ToNumber` on a string: after trimming, the empty string is `0` and
an optionally-signed decimal integer parses; the remaining formats
(fractions, exponents, hex — exercised by no property below) coarsen to
`NaN` (`none`). -/
def jsParseDecimal (s : String) : Option ℚ :=
  let cs := ((s.data.dropWhile (· = ' ')).reverse.dropWhile (· = ' ')).reverse
  match cs with
  | [] => some 0
  | '-' :: ds =>
    if ds.length ≠ 0 && ds.all Char.isDigit then some (-(digitsToNat ds : ℚ)) else none
  | '+' :: ds =>
    if ds.length ≠ 0 && ds.all Char.isDigit then some ((digitsToNat ds : ℚ)) else none
  | ds => if ds.all Char.isDigit then some ((digitsToNat ds : ℚ)) else none

/-- JS `ToNumber` of a parsed body-field value; `none` is `NaN`.  A valid
`Date` coerces to its timestamp and an invalid one to `NaN`; objects and
arrays coerce through string conversion, which coarsens to `NaN` here
(no property below exercises them). -/
def jsToNumber : JsValue → Option ℚ
  | .num q => some q
  | .bool b => some (if b then 1 else 0)
  | .null => some 0
  | .date t => t.map (fun i => (i : ℚ))
  | .str s => jsParseDecimal s
  | .obj _ => none
  | .arr _ => none

mutual

/-- JS string conversion (template-literal interpolation).  The token
values reachable below are strings; the other constructors follow JS
`ToString` on its simple cases — the embedding's integer rendering of an
integral number is exact, and the rational/timestamp renderings stand in
for JS float and date formatting, which the ℚ-based number model already
abstracts. -/
def jsValueToString : JsValue → String
  | .str s => s
  | .num q => if q.den = 1 then toString q.num else toString q
  | .bool b => if b then "true" else "false"
  | .null => "null"
  | .date t => match t with | some i => toString i | none => "Invalid Date"
  | .obj _ => "[object Object]"
  | .arr elems => jsArrayToString elems

/-- `Array.prototype.toString`: elements joined by `,`. -/
def jsArrayToString : List JsValue → String
  | [] => ""
  | [v] => jsArrayElemToString v
  | v :: rest => jsArrayElemToString v ++ "," ++ jsArrayToString rest

/-- One joined array element; `null` (and `undefined`) render empty. -/
def jsArrayElemToString : JsValue → String
  | .null => ""
  | v => jsValueToString v

end

/-- The auth state as it exists at runtime: `state.tokenData` holds
whatever `response.data` was last stored there (`null` initially, any
parsed body after a resolved fetch), and the expiry is a JS number
(`none` = `NaN`). -/
structure RawAuthState where
  tokenData : JsValue
  tokenExpiresAt : Option ℚ
  httpsAgent : Bool := false

/-- The cache check `state.tokenData?.access_token && state.tokenExpiresAt > now`
on the raw state: the `?.` yields `undefined` on the initial `null`, and
a `NaN` expiry compares false. -/
def rawHasValidToken (state : RawAuthState) (now : Int) : Bool :=
  jsTruthyVal (jsGetField state.tokenData "access_token") &&
    (match state.tokenExpiresAt with
     | some q => q > (now : ℚ)
     | none => false)

/-- The observable outcome of one raw-model `getOAuthToken` call:
`token = none` is JS `undefined`, `token = some .null` is JS `null`. -/
structure RawOAuthTokenCall where
  token : Option JsValue
  state : RawAuthState
  requests : List TokenRequest

/-- `getOAuthToken` (`auth-operations.ts` lines 142–226) over the raw
oracle: `.error` is an `axios.post` rejection, `.ok data` a resolved 2xx
response with `response.data = data` of any shape.  Line 200 stores the
body into `state.tokenData` before anything inspects it; the expiry
update and the final `return state.tokenData.access_token` then read
properties off that body, which for a malformed (e.g. raw-string) body
are all `undefined`. -/
def getOAuthTokenRaw (authConfig : AuthConfig) (state : RawAuthState) (now : Int)
    (network : TokenRequest → Except String JsValue) : RawOAuthTokenCall :=
  match authConfig.oauth2 with
  | none => ⟨some .null, state, []⟩
  | some oauth2 =>
    if rawHasValidToken state now then
      ⟨jsGetField state.tokenData "access_token", state, []⟩
    else
      let request := buildTokenRequest authConfig oauth2
      match network request with
      | .ok data =>
        -- `state.tokenData = response.data` happens first, unconditionally
        let state1 : RawAuthState := { state with tokenData := data }
        match data with
        | .null =>
          -- `if (response.data.expires_in)` throws a TypeError on a null
          -- body; the `catch` absorbs it and returns `null`, with the
          -- `tokenData` write above already applied
          ⟨some .null, state1, [request]⟩
        | _ =>
          -- `if (response.data.expires_in)` — JS truthiness
          let state2 : RawAuthState :=
            match jsGetField data "expires_in" with
            | some e =>
              if jsTruthyVal (some e) then
                { state1 with tokenExpiresAt :=
                    (jsToNumber e).map (fun q => (now : ℚ) + q * 1000 - 30000) }
              else state1
            | none => state1
          -- `const newAuthConfig = { ...authConfig }`: a truthy
          -- `response.data.refresh_token` is written only to that
          -- discarded local copy (the frame property is proved in C10)
          ⟨jsGetField data "access_token", state2, [request]⟩
      | .error _ => ⟨some .null, state, [request]⟩

/-- Lookup of a string record key (`record[k]`, `undefined` when absent). -/
def lookupStr (ps : List (String × String)) (k : String) : Option String :=
  (ps.find? (fun kv => kv.1 = k)).map (·.2)

/-- JS template interpolation of a `string | undefined` value. -/
def jsTemplateStr (o : Option String) : String := o.getD "undefined"

/-- `getAuthHeaders` (`auth-operations.ts` lines 231–278), over the raw
OAuth model so that every token-acquisition outcome — including a
resolved malformed body — is expressible; returns the header map together
with the state after the call and the token requests issued (only the
OAuth2 branch can touch either). -/
def getAuthHeaders (authConfig : AuthConfig) (state : RawAuthState) (now : Int)
    (network : TokenRequest → Except String JsValue) :
    List (String × String) × RawAuthState × List TokenRequest :=
  match authConfig.type with
  | .API_KEY =>
    match authConfig.apiKey with
    | some apiKey => ([(jsStrOr apiKey.headerName "X-API-Key", apiKey.key)], state, [])
    | none => ([], state, [])
  | .BEARER_TOKEN =>
    match authConfig.bearerToken with
    | some bt => ([("Authorization", "Bearer " ++ bt.token)], state, [])
    | none => ([], state, [])
  | .OAUTH2 =>
    let call := getOAuthTokenRaw authConfig state now network
    -- `if (token)` — JS truthiness (`null` and `undefined` both falsy)
    if jsTruthyVal call.token then
      ([("Authorization", "Bearer " ++ jsValueToString (call.token.getD .null))],
       call.state, call.requests)
    else ([], call.state, call.requests)
  | .BASIC_AUTH =>
    match authConfig.basicAuth with
    | some creds =>
      ([("Authorization",
         "Basic " ++ base64Encode (creds.username ++ ":" ++ jsTemplateStr creds.password))],
       state, [])
    | none => ([], state, [])
  | .CERTIFICATE => ([], state, [])
  | .NONE => ([], state, [])

/-! ## `createAuthConfigFromEnv` (`auth-operations.ts` lines 337–435) -/

/-- The environment variables the function reads (`undefined` = unset). -/
structure Env where
  OPENAPI_CERT_PATH : Option String := none
  OPENAPI_KEY_PATH : Option String := none
  OPENAPI_CERT_PASSPHRASE : Option String := none
  OPENAPI_OAUTH_CLIENT_ID : Option String := none
  OPENAPI_OAUTH_CLIENT_SECRET : Option String := none
  OPENAPI_OAUTH_TOKEN_URL : Option String := none
  OPENAPI_OAUTH_SCOPES : Option String := none
  OPENAPI_SPEC_HEADERS : Option String := none
deriving DecidableEq, Repr

/-- Does a header name match the api-key probe
(`key.toLowerCase().includes('api-key') || key.toLowerCase().includes('apikey')`)? -/
def isApiKeyHeaderName (k : String) : Bool :=
  decide ("api-key".data <:+: (jsToLower k).data) ||
    decide ("apikey".data <:+: (jsToLower k).data)

/-- `parsedHeaders.Authorization || parsedHeaders.authorization`. -/
def authorizationHeaderOf (hdrs : List (String × String)) : Option String :=
  jsStrOrOpt (lookupStr hdrs "Authorization") (lookupStr hdrs "authorization")

/-- `authHeader && authHeader.startsWith(pre)` for `authHeader : string | undefined`. -/
def jsOptStartsWith (o : Option String) (pre : String) : Bool :=
  match o with
  | some a => jsStartsWith a pre
  | none => false

/-- `createAuthConfigFromEnv`.  `JSON.parse` of the header blob is a
boundary call, modelled by the `jsonParse` oracle: `none` means the parse
threw (the `catch` logs and falls through to the no-auth default). -/
def createAuthConfigFromEnv (jsonParse : String → Option (List (String × String)))
    (env : Env) : AuthConfig :=
  if jsTruthyStr env.OPENAPI_CERT_PATH && jsTruthyStr env.OPENAPI_KEY_PATH then
    { type := .CERTIFICATE
      certificate := some
        { certPath := env.OPENAPI_CERT_PATH.getD ""
          keyPath := env.OPENAPI_KEY_PATH.getD ""
          passphrase := env.OPENAPI_CERT_PASSPHRASE } }
  else if jsTruthyStr env.OPENAPI_OAUTH_CLIENT_ID &&
      jsTruthyStr env.OPENAPI_OAUTH_CLIENT_SECRET &&
      jsTruthyStr env.OPENAPI_OAUTH_TOKEN_URL then
    { type := .OAUTH2
      oauth2 := some
        { clientId := env.OPENAPI_OAUTH_CLIENT_ID.getD ""
          clientSecret := env.OPENAPI_OAUTH_CLIENT_SECRET.getD ""
          tokenUrl := env.OPENAPI_OAUTH_TOKEN_URL.getD ""
          scopes := env.OPENAPI_OAUTH_SCOPES.map (jsSplit ',') } }
  else if jsTruthyStr env.OPENAPI_SPEC_HEADERS then
    match jsonParse (env.OPENAPI_SPEC_HEADERS.getD "") with
    | some parsedHeaders =>
      let authHeader := authorizationHeaderOf parsedHeaders
      if jsOptStartsWith authHeader "Bearer " then
        { type := .BEARER_TOKEN
          bearerToken := some { token := jsSubstringFrom 7 (authHeader.getD "") } }
      else
        match parsedHeaders.find? (fun kv => isApiKeyHeaderName kv.1) with
        | some kv =>
          { type := .API_KEY
            apiKey := some { headerName := some kv.1, key := kv.2 } }
        | none =>
          if jsOptStartsWith authHeader "Basic " then
            let decoded := base64Decode (jsSubstringFrom 6 (authHeader.getD ""))
            let parts := jsSplit ':' decoded
            { type := .BASIC_AUTH
              basicAuth := some { username := parts.headD "", password := parts[1]? } }
          else
            { type := .NONE }
    | none => { type := .NONE }
  else
    { type := .NONE }

/-! ## Tool adapter (`src/operations/smp-operations.ts`) -/

/-- `ToolCallResult`. -/
structure ToolCallResult where
  statusCode : Nat
  headers : List (String × String)
  data : JsValue

/-- The outcome of awaiting the operation callback inside `onToolCall`:
a successful HTTP response, a rejection whose error carries an upstream
HTTP response (`error.response` set), or any other thrown error (its
`.message`, when present, and the error value itself). -/
inductive CallOutcome where
  | success (status : Nat) (headers : List (String × String)) (data : JsValue)
  | httpError (status : Option Nat) (headers : List (String × String)) (data : JsValue)
  | otherError (message : Option String) (errorValue : JsValue)

/-- `onToolCall` (`smp-operations.ts` lines 133–181): a total function —
every outcome, error or not, maps to a structured `ToolCallResult`. -/
def onToolCall : CallOutcome → ToolCallResult
  | .success status headers data =>
    { statusCode := status, headers := headers, data := data }
  | .httpError status headers data =>
    -- `statusCode: axiosError?.response?.status ?? 500`
    { statusCode := status.getD 500, headers := headers, data := data }
  | .otherError message errorValue =>
    -- `data: error.message ?? error` (`??` tests nullish, not truthiness)
    { statusCode := 500, headers := []
      data := match message with | some m => .str m | none => errorValue }

/-- The content-type a result is dispatched on:
`headers['content-type'] || headers['Content-Type'] || 'application/json'`. -/
def contentTypeOf (result : ToolCallResult) : String :=
  jsStrOr (lookupStr result.headers "content-type")
    (jsStrOr (lookupStr result.headers "Content-Type") "application/json")

/-- `JSON.stringify(result, null, 2)` modelled at the JSON-value level:
the serialized object carries `statusCode`, `headers` and `data`. -/
def toolCallResultToJson (result : ToolCallResult) : JsValue :=
  .obj [("statusCode", .num (result.statusCode : ℚ)),
        ("headers", .obj (result.headers.map (fun kv => (kv.1, JsValue.str kv.2)))),
        ("data", result.data)]

/-- One item of a `CallToolResult.content` list. -/
inductive ContentItem where
  | image (data : JsValue) (mimeType : String)
  | audio (data : JsValue) (mimeType : String)
  | text (text : JsValue) (mimeType : String)

/-- `getContentObject` (`smp-operations.ts` lines 183–215). -/
def getContentObject (result : ToolCallResult) : ContentItem :=
  let contentType := contentTypeOf result
  if jsStartsWith contentType "image/" then
    .image result.data contentType
  else if jsStartsWith contentType "audio/" then
    .audio result.data contentType
  else
    .text (toolCallResultToJson result) "application/json"

/-- The content list the registered tool handler returns for one call:
`content: [getContentObject(result)]` (`smp-operations.ts` lines 225–232). -/
def toolHandlerContent (outcome : CallOutcome) : List ContentItem :=
  [getContentObject (onToolCall outcome)]

/-! ## Theorems -/

/-- C1: the tool-call handler never raises — `onToolCall` is a total
function into `ToolCallResult` — and normalizes every outcome: a success
maps to `{statusCode: response.status, headers, data}`; an error carrying
an upstream HTTP response maps to the same shape built from that response
with the status defaulting to 500 when absent; any other error maps to
`{statusCode: 500, headers: {}, data: error message}`. -/
theorem onToolCall_structured_result :
    (∀ status headers data, onToolCall (.success status headers data) =
      { statusCode := status, headers := headers, data := data }) ∧
    (∀ status headers data, onToolCall (.httpError status headers data) =
      { statusCode := status.getD 500, headers := headers, data := data }) ∧
    (∀ headers data, (onToolCall (.httpError none headers data)).statusCode = 500) ∧
    (∀ message errorValue, onToolCall (.otherError (some message) errorValue) =
      { statusCode := 500, headers := [], data := .str message }) ∧
    (∀ message errorValue, (onToolCall (.otherError message errorValue)).statusCode = 500 ∧
      (onToolCall (.otherError message errorValue)).headers = []) :=
  ⟨fun _ _ _ => rfl, fun _ _ _ => rfl, fun _ _ => rfl, fun _ _ => rfl,
   fun _ _ => ⟨rfl, rfl⟩⟩

/-- C4: with no `operationId`, the derived id is the sanitized description
(every character outside `[A-Za-z0-9_-]` replaced by `_`) truncated to 64
characters; with no description either, it is `{method}_{path}` with the
same substitution keeping at most the last 55 characters of the path; the
spec's two concrete examples evaluate as stated. -/
theorem deriveOperationId_derivation (description method path : String)
    (hd : description ≠ "") :
    deriveOperationId none (some description) method path =
      jsSliceFirst 64 (replaceNonIdChars description) ∧
    deriveOperationId none none method path =
      method ++ "_" ++ jsSliceLast 55 (replaceNonIdChars path) ∧
    deriveOperationId none (some "Test operation with spaces & symbols!") "get" "/path1" =
      "Test_operation_with_spaces___symbols_" ∧
    deriveOperationId none none "post" "/test/resource/123" = "post__test_resource_123" := by
  refine ⟨?_, rfl, by decide, by decide⟩
  have hdata : description.data ≠ [] := fun h => hd (by cases description; simp_all)
  have hX : jsSliceFirst 64 (replaceNonIdChars description) ≠ "" := by
    simp only [jsSliceFirst, replaceNonIdChars]
    intro h
    have hlist := congrArg String.data h
    simp at hlist
    exact hdata hlist
  simp [deriveOperationId, jsStrOr, hX]

/-- C4 witness: the theorem applied to the spec's example description. -/
theorem deriveOperationId_derivation_witness :
    deriveOperationId none (some "Test operation with spaces & symbols!") "post" "/x" =
      jsSliceFirst 64 (replaceNonIdChars "Test operation with spaces & symbols!") :=
  (deriveOperationId_derivation "Test operation with spaces & symbols!" "post" "/x"
    (by decide)).1

/-- C6: the registered handler returns exactly one content item per tool
result: an image item (raw payload + mime type) when the content-type
header starts with `image/`; an audio item when it starts with `audio/`;
otherwise a text item carrying the full JSON serialization of the
`ToolCallResult` — statusCode, headers, and data, not just data. -/
theorem toolHandlerContent_envelope (outcome : CallOutcome) :
    (toolHandlerContent outcome).length = 1 ∧
    (jsStartsWith (contentTypeOf (onToolCall outcome)) "image/" = true →
      toolHandlerContent outcome =
        [.image (onToolCall outcome).data (contentTypeOf (onToolCall outcome))]) ∧
    (jsStartsWith (contentTypeOf (onToolCall outcome)) "image/" = false →
      jsStartsWith (contentTypeOf (onToolCall outcome)) "audio/" = true →
      toolHandlerContent outcome =
        [.audio (onToolCall outcome).data (contentTypeOf (onToolCall outcome))]) ∧
    (jsStartsWith (contentTypeOf (onToolCall outcome)) "image/" = false →
      jsStartsWith (contentTypeOf (onToolCall outcome)) "audio/" = false →
      toolHandlerContent outcome =
        [.text (toolCallResultToJson (onToolCall outcome)) "application/json"]) ∧
    (∀ result : ToolCallResult, toolCallResultToJson result =
      .obj [("statusCode", .num (result.statusCode : ℚ)),
            ("headers", .obj (result.headers.map (fun kv => (kv.1, JsValue.str kv.2)))),
            ("data", result.data)]) := by
  refine ⟨rfl, fun himg => ?_, fun himg haud => ?_, fun himg haud => ?_, fun _ => rfl⟩
  · simp [toolHandlerContent, getContentObject, himg]
  · simp [toolHandlerContent, getContentObject, himg, haud]
  · simp [toolHandlerContent, getContentObject, himg, haud]

/-- A concrete image response: status 200, `content-type: image/jpeg`. -/
def imageOutcome : CallOutcome :=
  .success 200 [("content-type", "image/jpeg")] (.str "RAWBYTES")

/-- C6 witness: the envelope theorem applied to a concrete image response. -/
theorem toolHandlerContent_envelope_witness :
    toolHandlerContent imageOutcome =
      [.image (onToolCall imageOutcome).data (contentTypeOf (onToolCall imageOutcome))] :=
  (toolHandlerContent_envelope imageOutcome).2.1 (by decide)

/-- `(v :: L).getLast? <|> b` forgets `b` in favor of `v`. -/
theorem getLastQ_cons_orElse {α : Type} (v : α) (L : List α) (b : Option α) :
    ((v :: L).getLast? <|> b) = (L.getLast? <|> some v) := by
  cases L with
  | nil => simp
  | cons x xs =>
    rw [List.getLast?_cons_cons]
    cases h : (x :: xs).getLast? with
    | none => simp_all
    | some y => simp

/-- `codecStep` on a parameter absent from the arguments. -/
theorem codecStep_none (args : List (String × JsValue)) (st : List RequestParam × Option JsValue)
    (p : ParameterObject) (h : lookupArg args p.name = none) : codecStep args st p = st := by
  simp [codecStep, h]

/-- `codecStep` on a present `body`-location parameter. -/
theorem codecStep_body (args : List (String × JsValue)) (st : List RequestParam × Option JsValue)
    (p : ParameterObject) (v : JsValue) (h : lookupArg args p.name = some v)
    (hloc : p.location = "body") : codecStep args st p = (st.1, some v) := by
  simp [codecStep, h, hloc]

/-- `codecStep` on a present non-body parameter. -/
theorem codecStep_other (args : List (String × JsValue)) (st : List RequestParam × Option JsValue)
    (p : ParameterObject) (v : JsValue) (h : lookupArg args p.name = some v)
    (hloc : ¬ p.location = "body") :
    codecStep args st p = (st.1 ++ [⟨p.name, p.location, v⟩], st.2) := by
  simp [codecStep, h, hloc]

/-- The codec loop from an arbitrary accumulator state. -/
theorem unified_foldl_general (args : List (String × JsValue)) (params : List ParameterObject)
    (acc : List RequestParam) (b : Option JsValue) :
    params.foldl (codecStep args) (acc, b) =
    (acc ++ params.filterMap (fun p =>
        match lookupArg args p.name with
        | some v => if p.location = "body" then none
                    else some (⟨p.name, p.location, v⟩ : RequestParam)
        | none => none),
     ((params.filterMap (fun p =>
        if p.location = "body" then lookupArg args p.name else none)).getLast? <|> b)) := by
  induction params generalizing acc b with
  | nil => simp
  | cons p ps ih =>
    rw [List.foldl_cons]
    cases h : lookupArg args p.name with
    | none =>
      rw [codecStep_none args (acc, b) p h, ih acc b]
      simp only [List.filterMap_cons, h]
      have h2 : (if p.location = "body" then (none : Option JsValue) else none) = none := by
        split <;> rfl
      rw [h2]
    | some v =>
      by_cases hloc : p.location = "body"
      · rw [codecStep_body args (acc, b) p v h hloc, ih acc (some v)]
        simp only [List.filterMap_cons, h, hloc, eq_self_iff_true, if_true]
        rw [getLastQ_cons_orElse]
      · rw [codecStep_other args (acc, b) p v h hloc, ih]
        simp [List.filterMap_cons, h, hloc]

/-- C5: the codec emits exactly one `{name, location, value}` entry per
non-body declared parameter whose name is present in the arguments, in
declaration order; the single body output carries the value of the *last*
body-location parameter present in the arguments (later overwrites
earlier); absent parameters are silently skipped, so an absent body stays
undefined. -/
theorem unifiedArgumentsToParametersArray_codec (args : List (String × JsValue))
    (params : List ParameterObject) :
    unifiedArgumentsToParametersArray args params =
      (params.filterMap (fun p =>
          match lookupArg args p.name with
          | some v => if p.location = "body" then none
                      else some (⟨p.name, p.location, v⟩ : RequestParam)
          | none => none),
       (params.filterMap (fun p =>
          if p.location = "body" then lookupArg args p.name else none)).getLast?) := by
  rw [unifiedArgumentsToParametersArray, unified_foldl_general]
  simp

/-- A bare string schema node. -/
def stringSchema : SchemaObject := .mk (some "string") none none [] [] none none none none none

/-- A string schema node with `format: date-time`. -/
def dateTimeSchema : SchemaObject :=
  .mk (some "string") none none [] [] none none none (some "date-time") none

/-- The validator the bridge produces for `dateTimeSchema`:
`z.string().transform(val => new Date(val))`. -/
def dateTimeZod : ZodType := .ztransformDate .zstring

/-- C7 counterexample: the bridged `date-time` validator succeeds on the
non-ISO-8601 string `"not-a-date"` (producing an invalid timestamp), so
validation does not succeed *only* for ISO-8601-parseable input. -/
theorem dateTime_accepts_unparseable_cex :
    openAPISchemaToZod dateTimeSchema = .ok dateTimeZod ∧
    jsNewDate "not-a-date" = none ∧
    zodParse dateTimeZod (.str "not-a-date") = some (.date none) := by
  refine ⟨rfl, by decide, ?_⟩
  simp [dateTimeZod, zodParse, show jsNewDate "not-a-date" = none from by decide]

/-- C7 (amended): for a string schema with `format: date-time`, the
bridged validator accepts *every* input string and converts it into a
timestamp value — an invalid timestamp when the string is not parseable —
while still rejecting non-string input; the output type changes from
string to timestamp. -/
theorem dateTime_transforms_every_string :
    openAPISchemaToZod dateTimeSchema = .ok dateTimeZod ∧
    (∀ s, zodParse dateTimeZod (.str s) = some (.date (jsNewDate s))) ∧
    (∀ q, zodParse dateTimeZod (.num q) = none) := by
  refine ⟨rfl, fun s => ?_, fun q => ?_⟩ <;> simp [dateTimeZod, zodParse]

/-- The item schema of the C8 failing input: an object with a required
string field `name`. -/
def nameItemSchema : SchemaObject :=
  .mk (some "object") none none [("name", stringSchema)] ["name"] none none none none none

/-- The C8 failing input: `{type: "array", items: nameItemSchema}` (the
item shape declared in `items`, as in the repository's own test input). -/
def arrayOfNamedObjectsSchema : SchemaObject :=
  .mk (some "array") none none [] [] none none none none (some nameItemSchema)

/-- C8: the array bridge never reads `items` — it bridges the array
node's own (here empty) `properties` — so the produced validator is
`z.array(z.object({}))` and it *accepts* the element `{name: 123}` that
the item schema itself rejects: the per-field constraints of the item
schema are not enforced on array elements. -/
theorem arrayBridge_ignores_items_bug :
    openAPISchemaToZod arrayOfNamedObjectsSchema = .ok (.zarray (.zobject [])) ∧
    zodParse (.zarray (.zobject [])) (.arr [.obj [("name", .num 123)]]) =
      some (.arr [.obj []]) ∧
    openAPISchemaToZod nameItemSchema = .ok (.zobject [("name", .zstring, false)]) ∧
    zodParse (.zobject [("name", .zstring, false)]) (.obj [("name", .num 123)]) = none := by
  refine ⟨rfl, ?_, rfl, ?_⟩
  · simp [zodParse, zodParseElems, zodParseFields]
  · simp [zodParse, zodParseFields]

/-! ### OAuth2 token lifecycle (C2, C3, C10) -/

/-- Claim C2 (amended), written as a behavior function from the spec's
words: a cached (non-empty) token still valid at `now` is returned with no
network call; otherwise exactly one token request is issued; on a success
whose response carries a nonzero `expires_in` the expiry becomes
`now + expires_in*1000 - 30000`, otherwise the expiry keeps its previous
value; on failure nothing changes and no token is returned. -/
def specOAuth2TokenLifecycle (authConfig : AuthConfig) (oauth2 : OAuth2Auth)
    (state : AuthState) (now : Int)
    (network : TokenRequest → Except String TokenResponse) : OAuthTokenCall :=
  if (state.tokenData.map (fun t => t.access_token != "")).getD false
      && now < state.tokenExpiresAt then
    ⟨state.tokenData.map (·.access_token), state, [], authConfig⟩
  else
    let request := buildTokenRequest authConfig oauth2
    match network request with
    | .ok data =>
      ⟨some data.access_token,
       { tokenData := some data
         tokenExpiresAt :=
           match data.expires_in with
           | some e => if e ≠ 0 then now + e * 1000 - 30000 else state.tokenExpiresAt
           | none => state.tokenExpiresAt
         httpsAgent := state.httpsAgent },
       [request], authConfig⟩
    | .error _ => ⟨none, state, [request], authConfig⟩

/-- C2 (amended): for an oauth2 config, `getOAuthToken` implements exactly
the cache-then-fetch lifecycle of `specOAuth2TokenLifecycle`.  The
amendment relative to the claim: a response whose `expires_in` is zero is
treated like an absent `expires_in` (JS truthiness), leaving the stored
expiry unchanged. -/
theorem getOAuthToken_cache_and_expiry (authConfig : AuthConfig) (oauth2 : OAuth2Auth)
    (state : AuthState) (now : Int) (network : TokenRequest → Except String TokenResponse)
    (hcfg : authConfig.oauth2 = some oauth2) :
    getOAuthToken authConfig state now network =
      specOAuth2TokenLifecycle authConfig oauth2 state now network := by
  have hcond : hasValidToken state now =
      ((state.tokenData.map (fun t => t.access_token != "")).getD false
        && now < state.tokenExpiresAt) := by
    unfold hasValidToken
    cases state.tokenData <;> rfl
  unfold getOAuthToken specOAuth2TokenLifecycle
  rw [hcfg]
  split
  · rename_i heq; cases heq
  · rename_i o heq
    cases heq
    rw [hcond]
    split
    · rfl
    · cases hnet : network (buildTokenRequest authConfig oauth2) with
      | ok data =>
        cases hexp : data.expires_in with
        | none => simp [hnet, hexp]
        | some e =>
          by_cases he : e = 0
          · subst he; simp [hnet, hexp]
          · simp [hnet, hexp, he]
      | error e => simp [hnet]

/-- A concrete oauth2 client configuration. -/
def exampleOAuth2 : OAuth2Auth :=
  { clientId := "client-id", clientSecret := "client-secret"
    tokenUrl := "https://auth.example/token" }

/-- A concrete `AuthConfig` of type oauth2 (no refresh token). -/
def exampleOAuthConfig : AuthConfig := { type := .OAUTH2, oauth2 := some exampleOAuth2 }

/-- The auth state before any token was fetched. -/
def coldState : AuthState := { tokenData := none, tokenExpiresAt := 0 }

/-- An auth state holding a cached token valid until epoch-ms 10000. -/
def warmState : AuthState :=
  { tokenData := some { access_token := "cached-token" }, tokenExpiresAt := 10000 }

/-- A token endpoint answering with `expires_in: 0`. -/
def zeroExpiryNetwork : TokenRequest → Except String TokenResponse :=
  fun _ => .ok { access_token := "fresh-token", expires_in := some 0 }

/-- A token endpoint that always fails. -/
def failingNetwork : TokenRequest → Except String TokenResponse :=
  fun _ => .error "connect ECONNREFUSED"

/-- C2 counterexample: a successful token response that *includes*
`expires_in` with value `0` leaves the stored expiry at its previous
value (here `0`), not at `now + expires_in*1000 - 30000`, because the
code guards the update with JS truthiness (`if (response.data.expires_in)`).
So the claim as stated fails at this input. -/
theorem getOAuthToken_expiresInZero_cex :
    (getOAuthToken exampleOAuthConfig coldState 1000000 zeroExpiryNetwork).requests.length = 1 ∧
    (getOAuthToken exampleOAuthConfig coldState 1000000 zeroExpiryNetwork).state.tokenExpiresAt
      = 0 ∧
    (getOAuthToken exampleOAuthConfig coldState 1000000 zeroExpiryNetwork).state.tokenExpiresAt
      ≠ 1000000 + 0 * 1000 - 30000 := by
  refine ⟨rfl, rfl, by decide⟩

/-- C2 witness: the lifecycle theorem applied to a concrete cached-token
state at a time before the stored expiry. -/
theorem getOAuthToken_cache_and_expiry_witness :
    getOAuthToken exampleOAuthConfig warmState 500 failingNetwork =
      specOAuth2TokenLifecycle exampleOAuthConfig exampleOAuth2 warmState 500 failingNetwork :=
  getOAuthToken_cache_and_expiry exampleOAuthConfig exampleOAuth2 warmState 500
    failingNetwork rfl

/-- A raw auth state holding an expired well-formed cached token. -/
def staleRawState : RawAuthState :=
  { tokenData := .obj [("access_token", .str "old-token")], tokenExpiresAt := some 1000 }

/-- A token endpoint whose 2xx response body is an unparseable HTML page:
axios resolves it, keeping the raw body string as `response.data`. -/
def malformedBodyNetwork : TokenRequest → Except String JsValue :=
  fun _ => .ok (.str "<html>502 Bad Gateway</html>")

/-- A raw-oracle token endpoint that always rejects. -/
def failingRawNetwork : TokenRequest → Except String JsValue :=
  fun _ => .error "connect ECONNREFUSED"

/-- C3 counterexample: a 2xx response with a malformed (raw-string) body
*resolves*, so with an expired cached token the code overwrites
`state.tokenData` with the garbage payload — a partial mutation, the
expiry field being left alone — and returns `undefined` (not `null`).
This falsifies "returns null and leaves the cached token state exactly as
it was" for the malformed-body mode the claim names. -/
theorem getOAuthToken_malformedBody_cex :
    (getOAuthTokenRaw exampleOAuthConfig staleRawState 5000 malformedBodyNetwork).state.tokenData
      = .str "<html>502 Bad Gateway</html>" ∧
    staleRawState.tokenData = .obj [("access_token", .str "old-token")] ∧
    (getOAuthTokenRaw exampleOAuthConfig staleRawState 5000 malformedBodyNetwork).state.tokenData
      ≠ staleRawState.tokenData ∧
    (getOAuthTokenRaw exampleOAuthConfig staleRawState 5000
        malformedBodyNetwork).state.tokenExpiresAt = staleRawState.tokenExpiresAt ∧
    (getOAuthTokenRaw exampleOAuthConfig staleRawState 5000 malformedBodyNetwork).token
      = none ∧
    (getOAuthTokenRaw exampleOAuthConfig staleRawState 5000 malformedBodyNetwork).token
      ≠ some JsValue.null :=
  ⟨rfl, rfl,
   fun h => JsValue.noConfusion
     (show JsValue.str "<html>502 Bad Gateway</html>" =
       JsValue.obj [("access_token", JsValue.str "old-token")] from h),
   rfl, rfl,
   fun h => Option.noConfusion (show (none : Option JsValue) = some JsValue.null from h)⟩

/-- C3 (amended): with no valid cached token, a *rejected* token request
(network error or non-2xx status) makes `getOAuthToken` return `null`
with the state exactly as it was (no partial mutation), while a resolved
2xx response with a malformed raw-string body stores that body into
`state.tokenData` (mutating the cache, the expiry left unchanged) and
returns `undefined`; in both modes, header resolution for an oauth2
config yields an empty header map instead of failing the request. -/
theorem getOAuthToken_failure_modes (authConfig : AuthConfig) (oauth2 : OAuth2Auth)
    (state : RawAuthState) (now : Int) (network : TokenRequest → Except String JsValue)
    (hcfg : authConfig.oauth2 = some oauth2)
    (htype : authConfig.type = .OAUTH2)
    (hstale : rawHasValidToken state now = false) :
    (∀ msg, network (buildTokenRequest authConfig oauth2) = .error msg →
      getOAuthTokenRaw authConfig state now network =
        ⟨some .null, state, [buildTokenRequest authConfig oauth2]⟩ ∧
      (getAuthHeaders authConfig state now network).1 = [] ∧
      (getAuthHeaders authConfig state now network).2.1 = state) ∧
    (∀ s, network (buildTokenRequest authConfig oauth2) = .ok (.str s) →
      getOAuthTokenRaw authConfig state now network =
        ⟨none, { state with tokenData := .str s },
          [buildTokenRequest authConfig oauth2]⟩ ∧
      (getAuthHeaders authConfig state now network).1 = [] ∧
      (getAuthHeaders authConfig state now network).2.1 =
        { state with tokenData := .str s }) := by
  refine ⟨fun msg hfail => ?_, fun s hres => ?_⟩
  · have h1 : getOAuthTokenRaw authConfig state now network =
        ⟨some .null, state, [buildTokenRequest authConfig oauth2]⟩ := by
      unfold getOAuthTokenRaw
      rw [hcfg]
      simp [hstale, hfail]
    refine ⟨h1, ?_, ?_⟩ <;>
    · unfold getAuthHeaders
      rw [htype]
      simp [h1, jsTruthyVal]
  · have h1 : getOAuthTokenRaw authConfig state now network =
        ⟨none, { state with tokenData := .str s },
          [buildTokenRequest authConfig oauth2]⟩ := by
      unfold getOAuthTokenRaw
      rw [hcfg]
      simp [hstale, hres, jsGetField]
    refine ⟨h1, ?_, ?_⟩ <;>
    · unfold getAuthHeaders
      rw [htype]
      simp [h1, jsTruthyVal]

/-- C3 witness: the failure-modes theorem applied to the concrete stale
state, once against the rejecting endpoint and once against the
malformed-body endpoint. -/
theorem getOAuthToken_failure_modes_witness :
    (getOAuthTokenRaw exampleOAuthConfig staleRawState 5000 failingRawNetwork =
      ⟨some .null, staleRawState, [buildTokenRequest exampleOAuthConfig exampleOAuth2]⟩ ∧
     (getAuthHeaders exampleOAuthConfig staleRawState 5000 failingRawNetwork).1 = []) ∧
    (getOAuthTokenRaw exampleOAuthConfig staleRawState 5000 malformedBodyNetwork =
      ⟨none, { staleRawState with tokenData := .str "<html>502 Bad Gateway</html>" },
        [buildTokenRequest exampleOAuthConfig exampleOAuth2]⟩ ∧
     (getAuthHeaders exampleOAuthConfig staleRawState 5000 malformedBodyNetwork).1 = []) := by
  have hfail := (getOAuthToken_failure_modes exampleOAuthConfig exampleOAuth2 staleRawState
    5000 failingRawNetwork rfl rfl (by decide)).1 "connect ECONNREFUSED" rfl
  have hres := (getOAuthToken_failure_modes exampleOAuthConfig exampleOAuth2 staleRawState
    5000 malformedBodyNetwork rfl rfl (by decide)).2 "<html>502 Bad Gateway</html>" rfl
  exact ⟨⟨hfail.1, hfail.2.1⟩, ⟨hres.1, hres.2.1⟩⟩

/-! ### Environment-to-config resolution (C9) -/

/-- C9: `createAuthConfigFromEnv` resolves the environment with exactly
this precedence: (1) certificate when both cert path and key path are
set; (2) else oauth2 when client id, secret and token URL are all set;
(3) else, from the parsed header JSON: a `Bearer `-prefixed Authorization
header yields bearerToken, else a header whose name case-insensitively
contains `api-key`/`apikey` yields apiKey with that header's name/value,
else a `Basic `-prefixed Authorization header yields basicAuth from the
base64-decoded `username:password`; (4) otherwise — including unset
headers and malformed JSON — it yields none. -/
theorem createAuthConfigFromEnv_precedence
    (jsonParse : String → Option (List (String × String))) (env : Env) :
    ((jsTruthyStr env.OPENAPI_CERT_PATH && jsTruthyStr env.OPENAPI_KEY_PATH) = true →
      createAuthConfigFromEnv jsonParse env =
        { type := .CERTIFICATE
          certificate := some
            { certPath := env.OPENAPI_CERT_PATH.getD ""
              keyPath := env.OPENAPI_KEY_PATH.getD ""
              passphrase := env.OPENAPI_CERT_PASSPHRASE } }) ∧
    ((jsTruthyStr env.OPENAPI_CERT_PATH && jsTruthyStr env.OPENAPI_KEY_PATH) = false →
     (jsTruthyStr env.OPENAPI_OAUTH_CLIENT_ID && jsTruthyStr env.OPENAPI_OAUTH_CLIENT_SECRET &&
       jsTruthyStr env.OPENAPI_OAUTH_TOKEN_URL) = true →
      createAuthConfigFromEnv jsonParse env =
        { type := .OAUTH2
          oauth2 := some
            { clientId := env.OPENAPI_OAUTH_CLIENT_ID.getD ""
              clientSecret := env.OPENAPI_OAUTH_CLIENT_SECRET.getD ""
              tokenUrl := env.OPENAPI_OAUTH_TOKEN_URL.getD ""
              scopes := env.OPENAPI_OAUTH_SCOPES.map (jsSplit ',') } }) ∧
    ((jsTruthyStr env.OPENAPI_CERT_PATH && jsTruthyStr env.OPENAPI_KEY_PATH) = false →
     (jsTruthyStr env.OPENAPI_OAUTH_CLIENT_ID && jsTruthyStr env.OPENAPI_OAUTH_CLIENT_SECRET &&
       jsTruthyStr env.OPENAPI_OAUTH_TOKEN_URL) = false →
     jsTruthyStr env.OPENAPI_SPEC_HEADERS = false →
      createAuthConfigFromEnv jsonParse env = { type := .NONE }) ∧
    ((jsTruthyStr env.OPENAPI_CERT_PATH && jsTruthyStr env.OPENAPI_KEY_PATH) = false →
     (jsTruthyStr env.OPENAPI_OAUTH_CLIENT_ID && jsTruthyStr env.OPENAPI_OAUTH_CLIENT_SECRET &&
       jsTruthyStr env.OPENAPI_OAUTH_TOKEN_URL) = false →
     jsTruthyStr env.OPENAPI_SPEC_HEADERS = true →
     jsonParse (env.OPENAPI_SPEC_HEADERS.getD "") = none →
      createAuthConfigFromEnv jsonParse env = { type := .NONE }) ∧
    (∀ hdrs,
     (jsTruthyStr env.OPENAPI_CERT_PATH && jsTruthyStr env.OPENAPI_KEY_PATH) = false →
     (jsTruthyStr env.OPENAPI_OAUTH_CLIENT_ID && jsTruthyStr env.OPENAPI_OAUTH_CLIENT_SECRET &&
       jsTruthyStr env.OPENAPI_OAUTH_TOKEN_URL) = false →
     jsTruthyStr env.OPENAPI_SPEC_HEADERS = true →
     jsonParse (env.OPENAPI_SPEC_HEADERS.getD "") = some hdrs →
     jsOptStartsWith (authorizationHeaderOf hdrs) "Bearer " = true →
      createAuthConfigFromEnv jsonParse env =
        { type := .BEARER_TOKEN
          bearerToken := some
            { token := jsSubstringFrom 7 ((authorizationHeaderOf hdrs).getD "") } }) ∧
    (∀ hdrs kv,
     (jsTruthyStr env.OPENAPI_CERT_PATH && jsTruthyStr env.OPENAPI_KEY_PATH) = false →
     (jsTruthyStr env.OPENAPI_OAUTH_CLIENT_ID && jsTruthyStr env.OPENAPI_OAUTH_CLIENT_SECRET &&
       jsTruthyStr env.OPENAPI_OAUTH_TOKEN_URL) = false →
     jsTruthyStr env.OPENAPI_SPEC_HEADERS = true →
     jsonParse (env.OPENAPI_SPEC_HEADERS.getD "") = some hdrs →
     jsOptStartsWith (authorizationHeaderOf hdrs) "Bearer " = false →
     hdrs.find? (fun kv => isApiKeyHeaderName kv.1) = some kv →
      createAuthConfigFromEnv jsonParse env =
        { type := .API_KEY
          apiKey := some { headerName := some kv.1, key := kv.2 } }) ∧
    (∀ hdrs,
     (jsTruthyStr env.OPENAPI_CERT_PATH && jsTruthyStr env.OPENAPI_KEY_PATH) = false →
     (jsTruthyStr env.OPENAPI_OAUTH_CLIENT_ID && jsTruthyStr env.OPENAPI_OAUTH_CLIENT_SECRET &&
       jsTruthyStr env.OPENAPI_OAUTH_TOKEN_URL) = false →
     jsTruthyStr env.OPENAPI_SPEC_HEADERS = true →
     jsonParse (env.OPENAPI_SPEC_HEADERS.getD "") = some hdrs →
     jsOptStartsWith (authorizationHeaderOf hdrs) "Bearer " = false →
     hdrs.find? (fun kv => isApiKeyHeaderName kv.1) = none →
     jsOptStartsWith (authorizationHeaderOf hdrs) "Basic " = true →
      createAuthConfigFromEnv jsonParse env =
        { type := .BASIC_AUTH
          basicAuth := some
            { username := (jsSplit ':'
                (base64Decode (jsSubstringFrom 6 ((authorizationHeaderOf hdrs).getD "")))).headD ""
              password := (jsSplit ':'
                (base64Decode (jsSubstringFrom 6 ((authorizationHeaderOf hdrs).getD ""))))[1]? } }) ∧
    (∀ hdrs,
     (jsTruthyStr env.OPENAPI_CERT_PATH && jsTruthyStr env.OPENAPI_KEY_PATH) = false →
     (jsTruthyStr env.OPENAPI_OAUTH_CLIENT_ID && jsTruthyStr env.OPENAPI_OAUTH_CLIENT_SECRET &&
       jsTruthyStr env.OPENAPI_OAUTH_TOKEN_URL) = false →
     jsTruthyStr env.OPENAPI_SPEC_HEADERS = true →
     jsonParse (env.OPENAPI_SPEC_HEADERS.getD "") = some hdrs →
     jsOptStartsWith (authorizationHeaderOf hdrs) "Bearer " = false →
     hdrs.find? (fun kv => isApiKeyHeaderName kv.1) = none →
     jsOptStartsWith (authorizationHeaderOf hdrs) "Basic " = false →
      createAuthConfigFromEnv jsonParse env = { type := .NONE }) := by
  refine ⟨fun h1 => ?_, fun h1 h2 => ?_, fun h1 h2 h3 => ?_, fun h1 h2 h3 h4 => ?_,
    fun hdrs h1 h2 h3 h4 h5 => ?_, fun hdrs kv h1 h2 h3 h4 h5 h6 => ?_,
    fun hdrs h1 h2 h3 h4 h5 h6 h7 => ?_, fun hdrs h1 h2 h3 h4 h5 h6 h7 => ?_⟩
  · simp [createAuthConfigFromEnv, h1]
  · simp [createAuthConfigFromEnv, h1, h2]
  · simp [createAuthConfigFromEnv, h1, h2, h3]
  · simp [createAuthConfigFromEnv, h1, h2, h3, h4]
  · simp [createAuthConfigFromEnv, h1, h2, h3, h4, h5]
  · simp [createAuthConfigFromEnv, h1, h2, h3, h4, h5, h6]
  · simp [createAuthConfigFromEnv, h1, h2, h3, h4, h5, h6, h7]
  · simp [createAuthConfigFromEnv, h1, h2, h3, h4, h5, h6, h7]

/-- An environment whose only auth input is the extra-headers variable. -/
def bearerEnv : Env := { OPENAPI_SPEC_HEADERS := some "auth headers json" }

/-- A header-JSON parse oracle yielding a Bearer Authorization header. -/
def bearerJsonParse : String → Option (List (String × String)) :=
  fun _ => some [("Authorization", "Bearer tok123")]

/-- C9 witness: the precedence theorem applied to a concrete environment
whose header JSON carries `Authorization: Bearer tok123`. -/
theorem createAuthConfigFromEnv_precedence_witness :
    createAuthConfigFromEnv bearerJsonParse bearerEnv =
      { type := .BEARER_TOKEN
        bearerToken := some
          { token := jsSubstringFrom 7
              ((authorizationHeaderOf [("Authorization", "Bearer tok123")]).getD "") } } :=
  (createAuthConfigFromEnv_precedence bearerJsonParse bearerEnv).2.2.2.2.1
    [("Authorization", "Bearer tok123")] rfl rfl rfl rfl (by decide)

/-! ### Config immutability across calls (C10) -/

/-- Appending form fields never disturbs an existing head entry. -/
theorem foldl_urlParamsAppend_cons (aps : List (String × String)) (x : String × String)
    (t : List (String × String)) :
    aps.foldl (fun ps kv => urlParamsAppend ps kv.1 kv.2) (x :: t) =
      x :: aps.foldl (fun ps kv => urlParamsAppend ps kv.1 kv.2) t := by
  induction aps generalizing t with
  | nil => rfl
  | cons a as ih =>
    simp only [List.foldl_cons, urlParamsAppend, List.cons_append]
    exact ih (t ++ [(a.1, a.2)])

/-- The scope step keeps `grant_type=client_credentials` in front. -/
theorem tokenRequestScopedParams_shape (oauth2 : OAuth2Auth) :
    ∃ t, tokenRequestScopedParams oauth2 = ("grant_type", "client_credentials") :: t := by
  unfold tokenRequestScopedParams
  cases oauth2.scopes with
  | none => exact ⟨[], rfl⟩
  | some ss =>
    by_cases h : ss.length ≠ 0
    · exact ⟨[("scope", joinWith " " ss)], by simp [h, urlParamsAppend]⟩
    · exact ⟨[], by simp [h]⟩

/-- The additional-params step keeps `grant_type=client_credentials` in front. -/
theorem tokenRequestStaticParams_shape (oauth2 : OAuth2Auth) :
    ∃ t, tokenRequestStaticParams oauth2 = ("grant_type", "client_credentials") :: t := by
  obtain ⟨t0, h0⟩ := tokenRequestScopedParams_shape oauth2
  unfold tokenRequestStaticParams
  rw [h0]
  cases oauth2.additionalParams with
  | none => exact ⟨t0, rfl⟩
  | some aps => exact ⟨_, foldl_urlParamsAppend_cons aps _ t0⟩

/-- The first form field of a token request is always its grant type:
`refresh_token` when the config carries a (truthy) refresh token and
`client_credentials` otherwise. -/
theorem tokenRequestParams_shape (authConfig : AuthConfig) (oauth2 : OAuth2Auth) :
    ∃ t, tokenRequestParams authConfig oauth2 =
      ("grant_type",
        if jsTruthyStr authConfig.refreshToken then "refresh_token"
        else "client_credentials") :: t := by
  obtain ⟨t1, h1⟩ := tokenRequestStaticParams_shape oauth2
  unfold tokenRequestParams
  rw [h1]
  by_cases hr : jsTruthyStr authConfig.refreshToken
  · refine ⟨(t1.filter (fun p => p.1 ≠ "grant_type")) ++
      [("refresh_token", authConfig.refreshToken.getD "")], ?_⟩
    simp [hr, urlParamsAppend, urlParamsSet]
  · exact ⟨t1, by simp [hr]⟩

/-- The grant type of any request built from a config is decided solely by
that config's own `refreshToken` field. -/
theorem buildTokenRequest_grantType (authConfig : AuthConfig) (oauth2 : OAuth2Auth) :
    (buildTokenRequest authConfig oauth2).grantType =
      some (if jsTruthyStr authConfig.refreshToken then "refresh_token"
        else "client_credentials") := by
  obtain ⟨t, ht⟩ := tokenRequestParams_shape authConfig oauth2
  simp [buildTokenRequest, TokenRequest.grantType, ht]

/-- One step of a call sequence sharing a single `AuthConfig` object:
the next call receives the caller-visible config and state left by the
previous one, and the issued requests are accumulated. -/
def oauthCallStep (acc : AuthConfig × AuthState × List TokenRequest)
    (call : Int × (TokenRequest → Except String TokenResponse)) :
    AuthConfig × AuthState × List TokenRequest :=
  let r := getOAuthToken acc.1 acc.2.1 call.1 call.2
  (r.configAfter, r.state, acc.2.2 ++ r.requests)

/-- A sequence of `getOAuthToken` calls sharing one config and state. -/
def runOAuthCalls (authConfig : AuthConfig) (state : AuthState)
    (calls : List (Int × (TokenRequest → Except String TokenResponse))) :
    AuthConfig × AuthState × List TokenRequest :=
  calls.foldl oauthCallStep (authConfig, state, [])

/-- One `getOAuthToken` call never mutates the caller's config, and every
request it issues is built from that unchanged config. -/
theorem getOAuthToken_frame (authConfig : AuthConfig) (state : AuthState) (now : Int)
    (network : TokenRequest → Except String TokenResponse) :
    (getOAuthToken authConfig state now network).configAfter = authConfig ∧
    ∀ r ∈ (getOAuthToken authConfig state now network).requests,
      ∃ oauth2, authConfig.oauth2 = some oauth2 ∧ r = buildTokenRequest authConfig oauth2 := by
  unfold getOAuthToken
  cases hcfg : authConfig.oauth2 with
  | none => exact ⟨rfl, by simp⟩
  | some oauth2 =>
    by_cases hv : hasValidToken state now = true
    · exact ⟨by simp [hv], by simp [hv]⟩
    · cases hnet : network (buildTokenRequest authConfig oauth2) with
      | ok data =>
        refine ⟨by simp [hv, hnet], fun r hr => ?_⟩
        simp [hv, hnet] at hr
        exact ⟨oauth2, rfl, hr⟩
      | error e =>
        refine ⟨by simp [hv, hnet], fun r hr => ?_⟩
        simp [hv, hnet] at hr
        exact ⟨oauth2, rfl, hr⟩

/-- The call-sequence fold from an arbitrary request accumulator. -/
theorem runOAuthCalls_general
    (calls : List (Int × (TokenRequest → Except String TokenResponse)))
    (authConfig : AuthConfig) (state : AuthState) (acc : List TokenRequest) :
    (calls.foldl oauthCallStep (authConfig, state, acc)).1 = authConfig ∧
    ∀ r ∈ (calls.foldl oauthCallStep (authConfig, state, acc)).2.2,
      r ∈ acc ∨ ∃ oauth2, authConfig.oauth2 = some oauth2 ∧
        r = buildTokenRequest authConfig oauth2 := by
  induction calls generalizing state acc with
  | nil => exact ⟨rfl, fun r hr => .inl hr⟩
  | cons c cs ih =>
    rw [List.foldl_cons]
    have hstep : oauthCallStep (authConfig, state, acc) c =
        (authConfig, (getOAuthToken authConfig state c.1 c.2).state,
          acc ++ (getOAuthToken authConfig state c.1 c.2).requests) := by
      unfold oauthCallStep
      simp [(getOAuthToken_frame authConfig state c.1 c.2).1]
    rw [hstep]
    obtain ⟨hc, hm⟩ := ih ((getOAuthToken authConfig state c.1 c.2).state)
      (acc ++ (getOAuthToken authConfig state c.1 c.2).requests)
    refine ⟨hc, fun r hr => ?_⟩
    rcases hm r hr with hin | hex
    · rcases List.mem_append.mp hin with h | h
      · exact .inl h
      · exact .inr ((getOAuthToken_frame authConfig state c.1 c.2).2 r h)
    · exact .inr hex

/-- C10: across any sequence of `getOAuthToken` calls sharing one config,
the caller-visible config is never mutated (a server-issued refresh token
only reaches a discarded local copy), every issued request is built from
the original config, and its grant is `refresh_token` exactly when the
config already carried a truthy `refreshToken` before the first call —
a server-issued refresh token is never used for any later grant. -/
theorem getOAuthToken_config_immutable (authConfig : AuthConfig) (state : AuthState)
    (calls : List (Int × (TokenRequest → Except String TokenResponse))) :
    (runOAuthCalls authConfig state calls).1 = authConfig ∧
    ∀ r ∈ (runOAuthCalls authConfig state calls).2.2,
      (∃ oauth2, authConfig.oauth2 = some oauth2 ∧
        r = buildTokenRequest authConfig oauth2) ∧
      r.grantType = some (if jsTruthyStr authConfig.refreshToken then "refresh_token"
        else "client_credentials") := by
  obtain ⟨hc, hm⟩ := runOAuthCalls_general calls authConfig state []
  refine ⟨hc, fun r hr => ?_⟩
  rcases hm r hr with h | hex
  · exact absurd h (List.not_mem_nil r)
  · obtain ⟨oauth2, ho, rfl⟩ := hex
    exact ⟨⟨oauth2, ho, rfl⟩, buildTokenRequest_grantType authConfig oauth2⟩

/-- A token endpoint that issues a server-side refresh token. -/
def refreshIssuingNetwork : TokenRequest → Except String TokenResponse :=
  fun _ => .ok { access_token := "tok1", refresh_token := some "server-refresh"
                 expires_in := some 60 }

/-- C10 witness: two consecutive calls against an endpoint that issues a
refresh token still leave the config unchanged, and the requests issued
keep using the client-credentials grant. -/
theorem getOAuthToken_config_immutable_witness :
    (runOAuthCalls exampleOAuthConfig coldState
      [(0, refreshIssuingNetwork), (1000000, refreshIssuingNetwork)]).1 =
        exampleOAuthConfig ∧
    (buildTokenRequest exampleOAuthConfig exampleOAuth2).grantType =
      some "client_credentials" := by
  have h := getOAuthToken_config_immutable exampleOAuthConfig coldState
    [(0, refreshIssuingNetwork), (1000000, refreshIssuingNetwork)]
  refine ⟨h.1, ?_⟩
  have hlist : (runOAuthCalls exampleOAuthConfig coldState
      [(0, refreshIssuingNetwork), (1000000, refreshIssuingNetwork)]).2.2 =
      [buildTokenRequest exampleOAuthConfig exampleOAuth2,
       buildTokenRequest exampleOAuthConfig exampleOAuth2] := rfl
  have hmem : buildTokenRequest exampleOAuthConfig exampleOAuth2 ∈
      (runOAuthCalls exampleOAuthConfig coldState
        [(0, refreshIssuingNetwork), (1000000, refreshIssuingNetwork)]).2.2 := by
    rw [hlist]
    exact List.mem_cons_self _ _
  have hm := (h.2 (buildTokenRequest exampleOAuthConfig exampleOAuth2) hmem).2
  have hrt : jsTruthyStr exampleOAuthConfig.refreshToken = false := rfl
  rw [hrt] at hm
  simpa using hm

end OpenApiToMcp
